import Mathlib

/-!
Verification development for the `agentProxy` Firebase HTTP function in
`capstone-agent/functions/main.py` and its helper `_format_agent_message`.

Python strings are modelled as `List Char`; parsed JSON values (the results of
`json.loads` / Flask's `request.get_json`) are modelled by the inductive type
`Json`.  JSON numbers are restricted to integers in this model (the repository
never produces or consumes fractional numbers; `json_loads` rejects a numeric
literal with a fractional or exponent part, which is noted where relevant).
Stateful aspects (the outbound HTTP call, environment variables, the generated
UUID session id) are passed explicitly: `agentProxy` receives the environment
value, the session id and the outcome of the single upstream POST as arguments
and returns the HTTP response together with the list of outbound effects it
performed.
-/

namespace RecipeProxy

set_option maxRecDepth 65536

/-- Python strings are lists of characters. -/
abbrev Str := List Char

/-- Convert a Lean string literal to the `Str` model. -/
def S (s : String) : Str := s.toList

/-- Model of a Python value produced by `json.loads` (and consumed by
`json.dumps`): `None`, `bool`, `int`, `str`, `list`, `dict`.  Numbers are
restricted to integers in this model. -/
inductive Json where
  | null : Json
  | bool (b : Bool) : Json
  | int (n : Int) : Json
  | str (s : Str) : Json
  | arr (xs : List Json) : Json
  | obj (kvs : List (Str × Json)) : Json
deriving Repr

/-- Python truthiness (`bool(v)`) for the values representable as `Json`:
`None`, `False`, `0`, `""`, `[]` and `{}` are falsy, everything else truthy.
Used by `if not payload` (main.py line 65) and by the conditional expression
on main.py line 20. -/
def pyTruthy : Json → Bool
  | .null => false
  | .bool b => b
  | .int n => n != 0
  | .str s => !s.isEmpty
  | .arr xs => !xs.isEmpty
  | .obj kvs => !kvs.isEmpty

/-- First-match association-list lookup.  `json_loads` below never produces
duplicate keys (a later duplicate overwrites in place, as Python's `dict`
does), so first-match agrees with Python lookup. -/
def jsonLookup : List (Str × Json) → Str → Option Json
  | [], _ => none
  | (k, v) :: rest, key => if k = key then some v else jsonLookup rest key

/-- Insert into an association list with Python `dict` semantics: an existing
key keeps its position and gets the new value, a new key is appended. -/
def jsonInsert : List (Str × Json) → Str → Json → List (Str × Json)
  | [], key, v => [(key, v)]
  | (k, w) :: rest, key, v =>
    if k = key then (k, v) :: rest else (k, w) :: jsonInsert rest key v

/-- JSON whitespace accepted by Python's `json.loads` between tokens. -/
def isJsonWs (c : Char) : Bool :=
  c = ' ' || c = '\t' || c = '\n' || c = '\r'

/-- Skip JSON whitespace. -/
def skipWs (s : Str) : Str := s.dropWhile isJsonWs

/-- Hex digit value, if `c` is a hex digit (working on the code point:
digits are 48-57, lowercase a-f are 97-102, uppercase A-F are 65-70). -/
def hexVal (c : Char) : Option Nat :=
  let n := c.toNat
  if 48 ≤ n && n ≤ 57 then some (n - 48)
  else if 97 ≤ n && n ≤ 102 then some (n - 87)
  else if 65 ≤ n && n ≤ 70 then some (n - 55)
  else none

/-- Body of a JSON string literal, after the opening quote.  Handles the JSON
escapes; a raw control character is a parse error (as in Python's strict
default).  `\uXXXX` becomes the corresponding code point (surrogate pairs are
not recombined in this model). -/
def parseStringBody : Str → Option (Str × Str)
  | [] => none
  | '"' :: rest => some ([], rest)
  | '\\' :: esc =>
    match esc with
    | '"' :: r => (parseStringBody r).map (fun p => ('"' :: p.1, p.2))
    | '\\' :: r => (parseStringBody r).map (fun p => ('\\' :: p.1, p.2))
    | '/' :: r => (parseStringBody r).map (fun p => ('/' :: p.1, p.2))
    | 'b' :: r => (parseStringBody r).map (fun p => ('\x08' :: p.1, p.2))
    | 'f' :: r => (parseStringBody r).map (fun p => ('\x0c' :: p.1, p.2))
    | 'n' :: r => (parseStringBody r).map (fun p => ('\n' :: p.1, p.2))
    | 'r' :: r => (parseStringBody r).map (fun p => ('\r' :: p.1, p.2))
    | 't' :: r => (parseStringBody r).map (fun p => ('\t' :: p.1, p.2))
    | 'u' :: h1 :: h2 :: h3 :: h4 :: r =>
      match hexVal h1, hexVal h2, hexVal h3, hexVal h4 with
      | some a, some b, some c, some d =>
        let n := ((a * 16 + b) * 16 + c) * 16 + d
        if n.isValidChar then
          (parseStringBody r).map (fun p => (Char.ofNat n :: p.1, p.2))
        else none
      | _, _, _, _ => none
    | _ => none
  | c :: rest =>
    if c.toNat < 0x20 then none
    else (parseStringBody rest).map (fun p => (c :: p.1, p.2))

/-- Decimal digits to a natural number. -/
def digitsToNat (ds : Str) : Nat :=
  ds.foldl (fun acc c => acc * 10 + (c.toNat - '0'.toNat)) 0

/-- JSON integer literal: optional minus, then digits with no leading zero.
A following `.`, `e` or `E` (a float) is a parse failure in this model. -/
def parseIntLit (s : Str) : Option (Json × Str) :=
  let (neg, s1) := match s with
    | '-' :: r => (true, r)
    | _ => (false, s)
  let ds := s1.takeWhile Char.isDigit
  let rest := s1.dropWhile Char.isDigit
  if ds.isEmpty then none
  else if ds.length > 1 && ds.headI = '0' then none
  else match rest with
    | '.' :: _ => none
    | 'e' :: _ => none
    | 'E' :: _ => none
    | _ =>
      let n : Int := Int.ofNat (digitsToNat ds)
      some (.int (if neg then -n else n), rest)

mutual

/-- Recursive-descent JSON value parser (model of Python's `json.loads`
grammar, integers only), with explicit fuel. -/
def parseValue : Nat → Str → Option (Json × Str)
  | 0, _ => none
  | fuel + 1, s =>
    match skipWs s with
    | '\x7b' :: rest =>
      match skipWs rest with
      | '\x7d' :: r => some (.obj [], r)
      | _ => (parseMembers fuel rest []).map (fun p => (.obj p.1, p.2))
    | '[' :: rest =>
      match skipWs rest with
      | ']' :: r => some (.arr [], r)
      | _ => (parseElems fuel rest []).map (fun p => (.arr p.1, p.2))
    | '"' :: rest => (parseStringBody rest).map (fun p => (.str p.1, p.2))
    | 't' :: 'r' :: 'u' :: 'e' :: rest => some (.bool true, rest)
    | 'f' :: 'a' :: 'l' :: 's' :: 'e' :: rest => some (.bool false, rest)
    | 'n' :: 'u' :: 'l' :: 'l' :: rest => some (.null, rest)
    | s' => parseIntLit s'

/-- Members of a JSON object after the opening brace (at least one member). -/
def parseMembers : Nat → Str → List (Str × Json) → Option (List (Str × Json) × Str)
  | 0, _, _ => none
  | fuel + 1, s, acc =>
    match skipWs s with
    | '"' :: rest =>
      match parseStringBody rest with
      | none => none
      | some (key, r1) =>
        match skipWs r1 with
        | ':' :: r2 =>
          match parseValue fuel r2 with
          | none => none
          | some (v, r3) =>
            let acc' := jsonInsert acc key v
            match skipWs r3 with
            | ',' :: r4 => parseMembers fuel r4 acc'
            | '\x7d' :: r4 => some (acc', r4)
            | _ => none
        | _ => none
    | _ => none

/-- Elements of a JSON array after the opening bracket (at least one element). -/
def parseElems : Nat → Str → List Json → Option (List Json × Str)
  | 0, _, _ => none
  | fuel + 1, s, acc =>
    match parseValue fuel s with
    | none => none
    | some (v, r1) =>
      match skipWs r1 with
      | ',' :: r2 => parseElems fuel r2 (acc ++ [v])
      | ']' :: r2 => some (acc ++ [v], r2)
      | _ => none

end

/-- Model of Python's `json.loads`: parse one JSON value and require only
whitespace after it.  Returns `none` where Python raises `JSONDecodeError`. -/
def json_loads (s : Str) : Option Json :=
  match parseValue (2 * s.length + 8) s with
  | none => none
  | some (v, rest) => if (skipWs rest).isEmpty then some v else none

/-- Four-digit lowercase hex of `n % 65536` (for `\uXXXX` escapes). -/
def hex4 (n : Nat) : Str :=
  let dig := fun k => if k < 10 then Char.ofNat ('0'.toNat + k)
                      else Char.ofNat ('a'.toNat + (k - 10))
  [dig (n / 4096 % 16), dig (n / 256 % 16), dig (n / 16 % 16), dig (n % 16)]

/-- Escape one character inside a dumped JSON string, following
`json.dumps` defaults (`ensure_ascii=True`): named escapes for the common
control characters, `\uXXXX` for other control and all non-ASCII characters
(surrogate pairs for astral code points). -/
def escapeJsonChar (c : Char) : Str :=
  if c = '"' then ['\\', '"']
  else if c = '\\' then ['\\', '\\']
  else if c = '\n' then ['\\', 'n']
  else if c = '\t' then ['\\', 't']
  else if c = '\r' then ['\\', 'r']
  else if c = '\x08' then ['\\', 'b']
  else if c = '\x0c' then ['\\', 'f']
  else if c.toNat < 0x20 then '\\' :: 'u' :: hex4 c.toNat
  else if c.toNat < 0x7f then [c]
  else if c.toNat < 0x10000 then '\\' :: 'u' :: hex4 c.toNat
  else
    let n := c.toNat - 0x10000
    ('\\' :: 'u' :: hex4 (0xd800 + n / 0x400)) ++ ('\\' :: 'u' :: hex4 (0xdc00 + n % 0x400))

/-- Decimal rendering of an integer (Python `str(int)`). -/
def intToStr (n : Int) : Str := (toString n).toList

mutual

/-- Model of Python's `json.dumps` with its default separators
(`", "` between items, `": "` after keys) and `ensure_ascii=True`. -/
def json_dumps : Json → Str
  | .null => S "null"
  | .bool true => S "true"
  | .bool false => S "false"
  | .int n => intToStr n
  | .str s => '"' :: (dumpsStringBody s ++ ['"'])
  | .arr xs => '[' :: (dumpsElems xs ++ [']'])
  | .obj kvs => '\x7b' :: (dumpsMembers kvs ++ ['\x7d'])

/-- Escaped body of a dumped JSON string. -/
def dumpsStringBody : Str → Str
  | [] => []
  | c :: rest => escapeJsonChar c ++ dumpsStringBody rest

/-- Comma-joined dumped array elements. -/
def dumpsElems : List Json → Str
  | [] => []
  | [x] => json_dumps x
  | x :: xs => json_dumps x ++ (',' :: ' ' :: dumpsElems xs)

/-- Comma-joined dumped object members. -/
def dumpsMembers : List (Str × Json) → Str
  | [] => []
  | [(k, v)] => ('"' :: (dumpsStringBody k ++ ['"'])) ++ (':' :: ' ' :: json_dumps v)
  | (k, v) :: kvs =>
    ('"' :: (dumpsStringBody k ++ ['"'])) ++ (':' :: ' ' :: json_dumps v)
      ++ (',' :: ' ' :: dumpsMembers kvs)

end

/-- Escape one character inside a Python `repr` of a string that will be
delimited with quote character `q`: backslash and the delimiter are escaped,
newline/carriage-return/tab get named escapes, other control characters get
`\xNN`.  Printable characters are kept as-is. -/
def escapeReprChar (q : Char) (c : Char) : Str :=
  if c = '\\' then ['\\', '\\']
  else if c = q then ['\\', q]
  else if c = '\n' then ['\\', 'n']
  else if c = '\r' then ['\\', 'r']
  else if c = '\t' then ['\\', 't']
  else if c.toNat < 0x20 || c.toNat = 0x7f then
    '\\' :: 'x' :: [(hex4 c.toNat).get! 2, (hex4 c.toNat).get! 3]
  else [c]

/-- Python `repr` of a string: single-quoted, unless the string contains a
single quote and no double quote, in which case it is double-quoted. -/
def reprStr (s : Str) : Str :=
  let q : Char := if s.contains '\'' && !s.contains '"' then '"' else '\''
  q :: ((s.flatMap (escapeReprChar q)) ++ [q])

mutual

/-- Model of Python's `repr` on values produced by `json.loads`. -/
def py_repr : Json → Str
  | .null => S "None"
  | .bool true => S "True"
  | .bool false => S "False"
  | .int n => intToStr n
  | .str s => reprStr s
  | .arr xs => '[' :: (reprElems xs ++ [']'])
  | .obj kvs => '\x7b' :: (reprMembers kvs ++ ['\x7d'])

/-- Comma-joined `repr`s of list elements. -/
def reprElems : List Json → Str
  | [] => []
  | [x] => py_repr x
  | x :: xs => py_repr x ++ (',' :: ' ' :: reprElems xs)

/-- Comma-joined `repr`s of dict items (`key: value`). -/
def reprMembers : List (Str × Json) → Str
  | [] => []
  | [(k, v)] => reprStr k ++ (':' :: ' ' :: py_repr v)
  | (k, v) :: kvs => reprStr k ++ (':' :: ' ' :: py_repr v) ++ (',' :: ' ' :: reprMembers kvs)

end

/-- Model of Python's `str()` on values produced by `json.loads`: a string is
returned unchanged, anything else falls back to `repr`.  This is also what an
f-string interpolation `f"{v}"` produces. -/
def py_str : Json → Str
  | .str s => s
  | v => py_repr v

/-! ### `str.find` / `str.rfind` and the JSON-block extraction -/

/-- Model of Python's `str.find(c)`: index of the first occurrence, `none`
where Python returns `-1`. -/
def py_find (s : Str) (c : Char) : Option Nat :=
  match s with
  | [] => none
  | a :: rest => if a = c then some 0 else (py_find rest c).map (· + 1)

/-- Model of Python's `str.rfind(c)`: index of the last occurrence, `none`
where Python returns `-1`. -/
def py_rfind (s : Str) (c : Char) : Option Nat :=
  match s with
  | [] => none
  | a :: rest =>
    match py_rfind rest c with
    | some k => some (k + 1)
    | none => if a = c then some 0 else none

/-- The fallback body built on main.py lines 150-153 when the agent's string
output could not be parsed as JSON. -/
def unparsable_fallback (output : Str) : Json :=
  .obj [(S "response", .str output),
        (S "note", .str (S "Agent returned unparsable text response"))]

/-- The aggressive JSON-block extraction of main.py lines 123-156: for a
string output, take the substring from the first `'\x7b'` to the last `'\x7d'`
(`output[start_index : end_index + 1]`) and `json.loads` it; any failure
(missing brace, wrong order, parse error) produces `unparsable_fallback`.
A non-string output is passed through unchanged (line 139). -/
def extractAgentJson (output : Json) : Json :=
  match output with
  | .str s =>
    match py_find s '\x7b', py_rfind s '\x7d' with
    | some start_index, some end_index =>
      if start_index < end_index then
        match json_loads ((s.drop start_index).take (end_index + 1 - start_index)) with
        | some agent_json => agent_json
        | none => unparsable_fallback s
      else unparsable_fallback s
    | _, _ => unparsable_fallback s
  | v => v

/-! ### `textwrap.dedent`, `str.strip` and `_format_agent_message` -/

/-- Space or tab (the characters `textwrap.dedent` treats as indentation). -/
def isSpTab (c : Char) : Bool := c = ' ' || c = '\t'

/-- Python whitespace for `str.strip()`. -/
def isPyWs (c : Char) : Bool :=
  c = ' ' || c = '\t' || c = '\n' || c = '\r' || c = '\x0b' || c = '\x0c'

/-- Split on newline characters; always returns at least one line.
Model of `text.split('\n')` as used by `textwrap.dedent`. -/
def splitLines : Str → List Str
  | [] => [[]]
  | c :: rest =>
    if c = '\n' then [] :: splitLines rest
    else
      match splitLines rest with
      | l :: ls => (c :: l) :: ls
      | [] => [[c]]

/-- Join lines with newline characters (left inverse of `splitLines`). -/
def joinLines : List Str → Str
  | [] => []
  | [l] => l
  | l :: ls => l ++ '\n' :: joinLines ls

/-- Longest common prefix of two character lists (the net effect of the
margin-merging loop in `textwrap.dedent`). -/
def commonPre : Str → Str → Str
  | [], _ => []
  | _, [] => []
  | a :: as', b :: bs => if a = b then a :: commonPre as' bs else []

/-- The indentation `textwrap.dedent` records for a line: its leading
space/tab run, but only for lines that contain a non-whitespace character. -/
def lineIndent (l : Str) : Option Str :=
  if l.any (fun c => !isSpTab c) then some (l.takeWhile isSpTab) else none

/-- The margin `textwrap.dedent` computes: the longest common prefix of the
indentations of all lines with non-whitespace content. -/
def computeMargin (lines : List Str) : Str :=
  match lines.filterMap lineIndent with
  | [] => []
  | i :: is' => is'.foldl commonPre i

/-- One line of `textwrap.dedent` output: whitespace-only lines are
normalised to empty, other lines lose the margin prefix. -/
def stripLine (margin : Str) (l : Str) : Str :=
  if l.all isSpTab then []
  else if margin.isPrefixOf l then l.drop margin.length
  else l

/-- Model of `textwrap.dedent`. -/
def dedent (s : Str) : Str :=
  let lines := splitLines s
  let margin := computeMargin lines
  joinLines (lines.map (stripLine margin))

/-- Model of Python's `str.strip()` (both ends, Python whitespace). -/
def pstrip (s : Str) : Str :=
  ((s.dropWhile isPyWs).reverse.dropWhile isPyWs).reverse

/-- The fixed placeholder substituted for a falsy constraint
(main.py line 20). -/
def placeholder : Str := S "No additional constraint."

/-- The conditional expression `constraint if constraint else
"No additional constraint."` on main.py line 20 (Python truthiness). -/
def constraint_section (constraint : Json) : Json :=
  if pyTruthy constraint then constraint else .str placeholder

/-- The lines of the f-string literal on main.py lines 25-43 after
interpolation: the literal starts with a newline, every content line is
indented by eight spaces, and the last line is the eight-space indentation
before the closing quotes.  Joined with `joinLines` this is exactly the
interpolated literal to which `textwrap.dedent` is applied. -/
def rawLines (query constraint_sec sid : Str) : List Str :=
  [ [],
    S "        SESSION_ID: " ++ sid,
    [],
    S "        OBSERVE:",
    S "        - Capture the incoming request exactly as received.",
    S "        - Request: \"" ++ query ++ [ '"' ],
    S "        - Constraint: \"" ++ constraint_sec ++ [ '"' ],
    [],
    S "        REFLECT:",
    S "        - Review the observation for missing context (missing steps, conflicting instructions).",
    S "        - Call out any tensions or nutrition trade-offs before planning.",
    [],
    S "        LOOP:",
    S "        - Produce a corrected cooking plan that explicitly mentions how you honored the constraint.",
    S "        - Highlight a single self-correction you made after your reflection.",
    S "        - **The ONLY output you provide MUST be a valid, unadulterated JSON object.**",
    S "        - Answer in JSON with keys: plan (array of steps), constraint_ack (string), self_corrections (string), session_id (string).",
    S "        - Close the loop by confirming the plan is ready to execute.",
    S "        " ]

/-- The interpolated f-string literal of main.py lines 24-43. -/
def rawMessage (query constraint_sec sid : Str) : Str :=
  joinLines (rawLines query constraint_sec sid)

/-- `textwrap.dedent(...).strip()` applied to the interpolated literal, as a
function of the already-stringified interpolants. -/
def formatStr (query constraint_sec sid : Str) : Str :=
  pstrip (dedent (rawMessage query constraint_sec sid))

/-- Model of `_format_agent_message` (main.py lines 18-44).  The query and
constraint reach the function as whatever values were in the JSON body
(`agentProxy` does no type coercion), and the f-string interpolates them via
`str()`; dedent and strip are applied to the interpolated literal. -/
def _format_agent_message (query constraint : Json) (session_id : Str) : Str :=
  formatStr (py_str query) (py_str (constraint_section constraint)) session_id

/-! ### The HTTP handler `agentProxy` -/

/-- An HTTP response: status, body and the headers on the wire. -/
structure Resp where
  status : Nat
  body : Str
  headers : List (Str × Str)
deriving Repr, DecidableEq

/-- Model of constructing `https_fn.Response(body, status=..., headers=...)`:
Flask supplies the default `Content-Type: text/html; charset=utf-8` when the
caller's headers do not set one. -/
def mkResponse (body : Str) (status : Nat) (headers : List (Str × Str)) : Resp :=
  { status := status, body := body,
    headers :=
      if headers.any (fun h => h.1 = S "Content-Type") then headers
      else headers ++ [(S "Content-Type", S "text/html; charset=utf-8")] }

/-- The headers dict built on main.py lines 59-62 and passed to every
JSON-bodied response. -/
def jsonHeaders : List (Str × Str) :=
  [(S "Content-Type", S "application/json"),
   (S "Access-Control-Allow-Origin", S "*")]

/-- The headers of the CORS preflight response (main.py lines 50-54). -/
def optionsHeaders : List (Str × Str) :=
  [(S "Access-Control-Allow-Origin", S "*"),
   (S "Access-Control-Allow-Methods", S "POST, OPTIONS"),
   (S "Access-Control-Allow-Headers", S "Content-Type")]

/-- An inbound HTTP request: method and raw body text.
`req.get_json(silent=True)` is modelled as `json_loads` on the body,
returning `none` where Flask would return `None`. -/
structure Request where
  method : Str
  body : Str

/-- The reply of the upstream agent endpoint, when the POST reaches it. -/
structure UpstreamResponse where
  status : Nat
  reason : Str
  text : Str

/-- Outcome of the single outbound `session.post`: either the transport
raised (network failure), or a response object came back. -/
inductive UpstreamOutcome where
  | transportError (msg : Str) : UpstreamOutcome
  | response (r : UpstreamResponse) : UpstreamOutcome

/-- Outbound effects performed by the handler, in order: creating the
authorized session (main.py lines 90-91) and the POST to the agent
(lines 109-112, with the serialized JSON payload). -/
inductive Effect where
  | createSession : Effect
  | post (url : Str) (body : Str) : Effect
deriving Repr, DecidableEq

/-- Result of one invocation: an HTTP response, or an exception that escaped
the handler (only possible during validation, which sits outside the
`try` block). -/
inductive Outcome where
  | resp (r : Resp) : Outcome
  | uncaught (err : Str) : Outcome
deriving Repr, DecidableEq

/-- Python's `in` operator applied to a parsed JSON value: key membership
for a dict, element equality for a list, substring test for a string, and a
`TypeError` for the remaining (non-container) values. -/
def pyContains (v : Json) (k : Str) : Except Str Bool :=
  match v with
  | .obj kvs => .ok (kvs.any (fun p => p.1 = k))
  | .arr xs => .ok (xs.any (fun e => match e with | .str s => s = k | _ => false))
  | .str s => .ok (isSubStr k s)
  | _ => .error (S "TypeError: argument of type is not iterable")
where
  /-- Substring test (Python `k in s` on strings). -/
  isSubStr (pat s : Str) : Bool :=
    pat.isPrefixOf s || match s with | [] => false | _ :: t => isSubStr pat t

/-- `all(k in payload for k in ["query", "constraint"])` (main.py line 65):
short-circuits on the first `False`, and a `TypeError` raised by `in`
propagates. -/
def checkKeys (payload : Json) : Except Str Bool := do
  let q ← pyContains payload (S "query")
  if !q then return false
  let c ← pyContains payload (S "constraint")
  return c

/-- Python subscript `v[key]` with a string key: dict lookup (`KeyError` when
absent), `TypeError` for every other value. -/
def pyGetItem (v : Json) (key : Str) : Except Str Json :=
  match v with
  | .obj kvs =>
    match jsonLookup kvs key with
    | some w => .ok w
    | none => .error (S "KeyError")
  | .str _ => .error (S "TypeError: string indices must be integers")
  | .arr _ => .error (S "TypeError: list indices must be integers or slices, not str")
  | _ => .error (S "TypeError: value is not subscriptable")

/-- The 400 body of main.py line 67. -/
def missingKeysError : Json :=
  .obj [(S "error", .str (S "Missing 'query' or 'constraint' in JSON body."))]

/-- The 500 configuration-error body of main.py line 80. -/
def configError : Json :=
  .obj [(S "error", .str (S "Configuration Error: Agent ID environment variable (VERTEX_AGENT_ID) not set. Check deployment command."))]

/-- The 500 body built on main.py lines 170-177: `error`, `details`,
`api_url`, plus `api_response` when the `response` local exists. -/
def upstreamError (details : Str) (api_url : Str) (api_response : Option Str) : Json :=
  .obj ([(S "error", .str (S "Failed to call Vertex AI Agent Engine.")),
         (S "details", .str details),
         (S "api_url", .str api_url)] ++
        (match api_response with
         | some t => [(S "api_response", .str t)]
         | none => []))

/-- `_API_BASE_URL` (main.py line 14). -/
def _API_BASE_URL : Str := S "https://us-central1-aiplatform.googleapis.com/v1/"

/-- The message of the `requests.HTTPError` raised by `raise_for_status`. -/
def httpErrorMsg (r : UpstreamResponse) (url : Str) : Str :=
  intToStr r.status ++
    (if r.status < 500 then S " Client Error: " else S " Server Error: ") ++
    r.reason ++ S " for url: " ++ url

/-- Processing of the parsed upstream body `response_data`
(main.py lines 120-165).  Runs inside the outer `try`, so a raised
`TypeError` (from `in` or subscripting on a non-dict value) is returned as
`.error` for the outer handler; the inner `try/except` around the extraction
is already folded into `extractAgentJson`, which cannot raise. -/
def processResponseData (response_data : Json) : Except Str Resp := do
  let hasOutput ← pyContains response_data (S "output")
  if hasOutput then
    let output ← pyGetItem response_data (S "output")
    return mkResponse (json_dumps (extractAgentJson output)) 200 jsonHeaders
  else
    return mkResponse
      (json_dumps (.obj [(S "response", .str (py_str response_data)),
                         (S "note", .str (S "Unexpected response format from agent"))]))
      200 jsonHeaders

/-- The `try`/`except` block of main.py lines 107-182, given the outcome of
the POST.  `raise_for_status` raises exactly for statuses in `[400, 600)`;
`response.json()` failing and any exception from `processResponseData` are
caught by the outer `except`, which includes `api_response` whenever the
`response` local exists (i.e. whenever the POST itself returned). -/
def handleUpstream (url : Str) (up : UpstreamOutcome) : Outcome :=
  match up with
  | .transportError msg =>
    .resp (mkResponse (json_dumps (upstreamError msg url none)) 500 jsonHeaders)
  | .response r =>
    if 400 ≤ r.status ∧ r.status < 600 then
      .resp (mkResponse (json_dumps (upstreamError (httpErrorMsg r url) url (some r.text))) 500 jsonHeaders)
    else
      match json_loads r.text with
      | none =>
        .resp (mkResponse
          (json_dumps (upstreamError (S "Expecting value: line 1 column 1 (char 0)") url (some r.text)))
          500 jsonHeaders)
      | some response_data =>
        match processResponseData response_data with
        | .ok resp => .resp resp
        | .error e =>
          .resp (mkResponse (json_dumps (upstreamError e url (some r.text))) 500 jsonHeaders)

/-- Everything after validation succeeds (main.py lines 76-182): environment
check, URL construction, session creation, message formatting, the POST and
the response processing.  Returns the outcome and the outbound effects. -/
def postValidation (env : Option Str) (sid : Str) (query constraint : Json)
    (up : UpstreamOutcome) : Outcome × List Effect :=
  match env with
  | none => (.resp (mkResponse (json_dumps configError) 500 jsonHeaders), [])
  | some agentId =>
    if agentId.isEmpty then
      (.resp (mkResponse (json_dumps configError) 500 jsonHeaders), [])
    else
      let url := _API_BASE_URL ++ agentId ++ S ":query"
      let formatted := _format_agent_message query constraint sid
      let requestBody : Json :=
        .obj [(S "input", .obj [(S "message", .str formatted),
                                (S "session_id", .str sid)])]
      (handleUpstream url up, [.createSession, .post url (json_dumps requestBody)])

/-- Model of the `agentProxy` request handler (main.py lines 47-182).
`env` is the value of `VERTEX_AGENT_ID`, `sid` the freshly generated UUID,
and `up` the outcome of the (single possible) outbound POST. -/
def agentProxy (env : Option Str) (sid : Str) (req : Request)
    (up : UpstreamOutcome) : Outcome × List Effect :=
  if req.method = S "OPTIONS" then
    (.resp (mkResponse [] 200 optionsHeaders), [])
  else if req.method ≠ S "POST" then
    (.resp (mkResponse (S "Method Not Allowed") 405 []), [])
  else
    match json_loads req.body with
    | none => (.resp (mkResponse (json_dumps missingKeysError) 400 jsonHeaders), [])
    | some payload =>
      if !pyTruthy payload then
        (.resp (mkResponse (json_dumps missingKeysError) 400 jsonHeaders), [])
      else
        match checkKeys payload with
        | .error e => (.uncaught e, [])
        | .ok false => (.resp (mkResponse (json_dumps missingKeysError) 400 jsonHeaders), [])
        | .ok true =>
          match pyGetItem payload (S "query") with
          | .error e => (.uncaught e, [])
          | .ok query =>
            match pyGetItem payload (S "constraint") with
            | .error e => (.uncaught e, [])
            | .ok constraint => postValidation env sid query constraint up

/-! ## Helper lemmas about validation -/

/-- A key found by `jsonLookup` is seen by `List.any`. -/
lemma jsonLookup_some_any {kvs : List (Str × Json)} {k : Str} {v : Json}
    (h : jsonLookup kvs k = some v) : kvs.any (fun p => p.1 = k) = true := by
  induction kvs with
  | nil => simp [jsonLookup] at h
  | cons p rest ih =>
    obtain ⟨k', v'⟩ := p
    by_cases hk : k' = k
    · simp [hk]
    · rw [jsonLookup, if_neg hk] at h
      simp [ih h]

/-- A key missed by `jsonLookup` is missed by `List.any`. -/
lemma jsonLookup_none_any {kvs : List (Str × Json)} {k : Str}
    (h : jsonLookup kvs k = none) : kvs.any (fun p => p.1 = k) = false := by
  induction kvs with
  | nil => simp
  | cons p rest ih =>
    obtain ⟨k', v'⟩ := p
    by_cases hk : k' = k
    · rw [jsonLookup, if_pos hk] at h; exact absurd h (by simp)
    · rw [jsonLookup, if_neg hk] at h
      simp [hk, ih h]

/-- `checkKeys` on a dict payload is the conjunction of the two key
membership tests. -/
lemma checkKeys_obj (kvs : List (Str × Json)) :
    checkKeys (.obj kvs) =
      .ok (kvs.any (fun p => p.1 = S "query") && kvs.any (fun p => p.1 = S "constraint")) := by
  unfold checkKeys pyContains
  cases h : kvs.any (fun p => p.1 = S "query") <;>
    simp [h, bind, Except.bind, pure, Except.pure]

/-- On a `POST` whose body parses to a JSON object containing both `query`
and `constraint`, `agentProxy` passes validation and runs the rest of the
handler on the two looked-up values. -/
lemma agentProxy_validated (env : Option Str) (sid : Str) (req : Request)
    (kvs : List (Str × Json)) (qv cv : Json) (up : UpstreamOutcome)
    (hm : req.method = S "POST")
    (hb : json_loads req.body = some (.obj kvs))
    (hq : jsonLookup kvs (S "query") = some qv)
    (hc : jsonLookup kvs (S "constraint") = some cv) :
    agentProxy env sid req up = postValidation env sid qv cv up := by
  have hne : kvs ≠ [] := by
    intro h; subst h; simp [jsonLookup] at hq
  unfold agentProxy
  rw [hm, if_neg (by decide), if_neg (by decide)]
  simp only [hb, checkKeys_obj, jsonLookup_some_any hq, jsonLookup_some_any hc,
    Bool.and_self, pyTruthy]
  rw [if_neg (by simp [List.isEmpty_eq_true, hne])]
  simp [pyGetItem, hq, hc]

/-! ## Claim C3 -/

/-- **C3 (counterexample).** The claim says every valid-JSON `POST` body in
which the `query` key is absent gets the fixed 400 response.  The body `5` is
valid JSON and has no `query` key, yet `agentProxy` does not return 400: the
membership test `"query" in payload` raises an uncaught `TypeError` (the
payload `5` is truthy, so the `not payload` short-circuit does not save it). -/
theorem c3_counterexample :
    (agentProxy none (S "s") ⟨S "POST", S "5"⟩ (.transportError [])).1 =
        .uncaught (S "TypeError: argument of type is not iterable") ∧
    (agentProxy none (S "s") ⟨S "POST", S "5"⟩ (.transportError [])).1 ≠
        .resp (mkResponse (json_dumps missingKeysError) 400 jsonHeaders) :=
  ⟨rfl, by decide⟩

/-- **C3 (amended).** On a `POST`: a body that is not valid JSON, or parses
to a falsy JSON value (in particular the empty object), or parses to a JSON
object lacking `query` or `constraint`, yields HTTP 400 with the fixed body
`Missing 'query' or 'constraint' in JSON body.` and no outbound effect; a
body parsing to a JSON object with both keys present (the constraint may be
the empty string) passes validation, and processing continues with the two
looked-up values. -/
theorem c3_validation (env : Option Str) (sid : Str) (req : Request)
    (up : UpstreamOutcome) (hm : req.method = S "POST") :
    (json_loads req.body = none →
      agentProxy env sid req up =
        (.resp (mkResponse (json_dumps missingKeysError) 400 jsonHeaders), [])) ∧
    (∀ payload, json_loads req.body = some payload → pyTruthy payload = false →
      agentProxy env sid req up =
        (.resp (mkResponse (json_dumps missingKeysError) 400 jsonHeaders), [])) ∧
    (∀ kvs, json_loads req.body = some (.obj kvs) →
      (jsonLookup kvs (S "query") = none ∨ jsonLookup kvs (S "constraint") = none) →
      agentProxy env sid req up =
        (.resp (mkResponse (json_dumps missingKeysError) 400 jsonHeaders), [])) ∧
    (∀ kvs qv cv, json_loads req.body = some (.obj kvs) →
      jsonLookup kvs (S "query") = some qv →
      jsonLookup kvs (S "constraint") = some cv →
      agentProxy env sid req up = postValidation env sid qv cv up) := by
  refine ⟨?_, ?_, ?_, ?_⟩
  · intro h
    unfold agentProxy
    rw [hm, if_neg (by decide), if_neg (by decide), h]
  · intro payload h hf
    unfold agentProxy
    rw [hm, if_neg (by decide), if_neg (by decide), h]
    simp [hf]
  · intro kvs h hmiss
    unfold agentProxy
    rw [hm, if_neg (by decide), if_neg (by decide), h]
    match kvs, hmiss with
    | [], _ => simp [pyTruthy]
    | p :: rest, hmiss =>
      rcases hmiss with h1 | h1 <;>
        simp [pyTruthy, checkKeys_obj, jsonLookup_none_any h1]
  · intro kvs qv cv hb hq hc
    exact agentProxy_validated env sid req kvs qv cv up hm hb hq hc

/-- **C3 (witness).** A concrete object body missing `constraint` gets the
fixed 400 response. -/
theorem c3_validation_witness :
    agentProxy none (S "s") ⟨S "POST", S "\x7b\"query\": 1\x7d"⟩ (.transportError []) =
      (.resp (mkResponse (json_dumps missingKeysError) 400 jsonHeaders), []) :=
  (c3_validation none (S "s") ⟨S "POST", S "\x7b\"query\": 1\x7d"⟩
    (.transportError []) rfl).2.2.1 [(S "query", .int 1)] rfl (Or.inr rfl)

/-! ## Claim C5 -/

/-- **C5.** For every validated `POST` request, a missing or empty
`VERTEX_AGENT_ID` produces HTTP 500 with the Configuration Error body, and
no outbound effect (no credential session, no POST) is performed. -/
theorem c5_config_error_no_call (env : Option Str) (sid : Str) (req : Request)
    (kvs : List (Str × Json)) (qv cv : Json) (up : UpstreamOutcome)
    (hm : req.method = S "POST")
    (hb : json_loads req.body = some (.obj kvs))
    (hq : jsonLookup kvs (S "query") = some qv)
    (hc : jsonLookup kvs (S "constraint") = some cv)
    (henv : env = none ∨ env = some []) :
    agentProxy env sid req up =
      (.resp (mkResponse (json_dumps configError) 500 jsonHeaders), []) := by
  rw [agentProxy_validated env sid req kvs qv cv up hm hb hq hc]
  rcases henv with rfl | rfl <;> simp [postValidation]

/-- **C5 (witness).** Concrete validated request with the variable unset. -/
theorem c5_config_error_no_call_witness :
    agentProxy none (S "s5") ⟨S "POST", S "\x7b\"query\": \"q\", \"constraint\": \"\"\x7d"⟩
        (.transportError []) =
      (.resp (mkResponse (json_dumps configError) 500 jsonHeaders), []) :=
  c5_config_error_no_call none (S "s5") _
    [(S "query", .str (S "q")), (S "constraint", .str [])] (.str (S "q")) (.str [])
    _ rfl rfl rfl rfl (Or.inl rfl)

/-! ## Characterizations of `py_find` / `py_rfind` -/

/-- `py_find` returns the least index holding `c`. -/
lemma py_find_of_least (s : Str) (c : Char) (i : Nat)
    (h1 : s[i]? = some c) (h2 : ∀ k, k < i → s[k]? ≠ some c) :
    py_find s c = some i := by
  induction s generalizing i with
  | nil => simp at h1
  | cons a rest ih =>
    cases i with
    | zero =>
      simp only [List.getElem?_cons_zero, Option.some_inj] at h1
      simp [py_find, h1]
    | succ i' =>
      have ha : ¬ a = c := by
        intro hac
        exact h2 0 (Nat.succ_pos _) (by simp [hac])
      rw [List.getElem?_cons_succ] at h1
      have h2' : ∀ k, k < i' → rest[k]? ≠ some c := by
        intro k hk
        have := h2 (k + 1) (by omega)
        simpa using this
      simp [py_find, ha, ih i' h1 h2']

/-- If `c` occurs nowhere, `py_rfind` misses. -/
lemma py_rfind_of_none (s : Str) (c : Char)
    (h : ∀ k : Nat, s[k]? ≠ some c) : py_rfind s c = none := by
  induction s with
  | nil => rfl
  | cons a rest ih =>
    have ha : ¬ a = c := by
      intro hac
      exact h 0 (by simp [hac])
    have h' : ∀ k : Nat, rest[k]? ≠ some c := by
      intro k
      have := h (k + 1)
      simpa using this
    simp [py_rfind, ih h', ha]

/-- `py_rfind` returns the greatest index holding `c`. -/
lemma py_rfind_of_greatest (s : Str) (c : Char) (j : Nat)
    (h1 : s[j]? = some c) (h2 : ∀ k : Nat, j < k → s[k]? ≠ some c) :
    py_rfind s c = some j := by
  induction s generalizing j with
  | nil => simp at h1
  | cons a rest ih
  =>
    cases j with
    | zero =>
      simp only [List.getElem?_cons_zero, Option.some_inj] at h1
      have h2' : ∀ k : Nat, rest[k]? ≠ some c := by
        intro k
        have := h2 (k + 1) (by omega)
        simpa using this
      simp [py_rfind, py_rfind_of_none rest c h2', h1]
    | succ j' =>
      rw [List.getElem?_cons_succ] at h1
      have h2' : ∀ k : Nat, j' < k → rest[k]? ≠ some c := by
        intro k hk
        have := h2 (k + 1) (by omega)
        simpa using this
      simp [py_rfind, ih j' h1 h2']

/-! ## Claim C2 -/

/-- **C2.** Whenever the agent output string has its first `'\x7b'` at index
`i` and its last `'\x7d'` at index `j` with `i < j`, the extraction equals
JSON-parsing the substring from the first `'\x7b'` through the last `'\x7d'`
inclusive — the outermost span — falling back only when that very substring
does not parse. -/
theorem c2_outermost_span (s : Str) (i j : Nat)
    (hi1 : s[i]? = some '\x7b') (hi2 : ∀ k, k < i → s[k]? ≠ some '\x7b')
    (hj1 : s[j]? = some '\x7d')
    (hj2 : ∀ k, k < s.length → j < k → s[k]? ≠ some '\x7d')
    (hij : i < j) :
    extractAgentJson (.str s) =
      (json_loads ((s.drop i).take (j + 1 - i))).getD (unparsable_fallback s) := by
  have hj2' : ∀ k : Nat, j < k → s[k]? ≠ some '\x7d' := by
    intro k hk
    by_cases hlen : k < s.length
    · exact hj2 k hlen hk
    · rw [List.getElem?_eq_none (by omega)]
      simp
  simp only [extractAgentJson]
  rw [py_find_of_least s _ i hi1 hi2, py_rfind_of_greatest s _ j hj1 hj2']
  cases h : json_loads ((s.drop i).take (j + 1 - i)) <;> simp [hij, h]

/-- **C2 (witness).** A nested-brace output wrapped in prose: the span runs
from the first `'\x7b'` (index 2) to the last `'\x7d'` (index 16), not to
the end of the first balanced pair. -/
theorem c2_outermost_span_witness :
    extractAgentJson (.str (S "x \x7b\"a\": \x7b\"b\": 1\x7d\x7d y")) =
      (json_loads (((S "x \x7b\"a\": \x7b\"b\": 1\x7d\x7d y").drop 2).take (16 + 1 - 2))).getD
        (unparsable_fallback (S "x \x7b\"a\": \x7b\"b\": 1\x7d\x7d y")) :=
  c2_outermost_span (S "x \x7b\"a\": \x7b\"b\": 1\x7d\x7d y") 2 16
    (by decide) (by decide) (by decide) (by decide) (by decide)

/-! ## Pipeline lemmas for the upstream-processing claims -/

/-- On a dict body containing `output`, the handler serializes the
extraction of the `output` value with status 200. -/
lemma processResponseData_output (okvs : List (Str × Json)) (v : Json)
    (hout : jsonLookup okvs (S "output") = some v) :
    processResponseData (.obj okvs) =
      .ok (mkResponse (json_dumps (extractAgentJson v)) 200 jsonHeaders) := by
  unfold processResponseData
  simp [pyContains, jsonLookup_some_any hout, pyGetItem, hout,
    bind, Except.bind, pure, Except.pure]

/-- On a dict body without `output`, the handler wraps the `str()` of the
whole body with status 200. -/
lemma processResponseData_no_output (okvs : List (Str × Json))
    (hout : jsonLookup okvs (S "output") = none) :
    processResponseData (.obj okvs) =
      .ok (mkResponse
        (json_dumps (.obj [(S "response", .str (py_str (.obj okvs))),
                           (S "note", .str (S "Unexpected response format from agent"))]))
        200 jsonHeaders) := by
  unfold processResponseData
  simp [pyContains, jsonLookup_none_any hout, bind, Except.bind, pure, Except.pure]

/-- With a configured, non-empty agent id, `postValidation` builds the URL,
creates the session, formats the message, performs the POST and hands the
outcome to `handleUpstream`. -/
lemma postValidation_some (aid : Str) (haid : aid ≠ []) (sid : Str)
    (q c : Json) (up : UpstreamOutcome) :
    postValidation (some aid) sid q c up =
      (handleUpstream (_API_BASE_URL ++ aid ++ S ":query") up,
       [Effect.createSession,
        Effect.post (_API_BASE_URL ++ aid ++ S ":query")
          (json_dumps (.obj [(S "input",
            .obj [(S "message", .str (_format_agent_message q c sid)),
                  (S "session_id", .str sid)])]))]) := by
  simp only [postValidation]
  rw [if_neg (by simp [List.isEmpty_eq_true, haid])]

/-- `handleUpstream` on a response outside the raising range with a JSON
body runs `processResponseData`, turning a raised exception into the 500
diagnostic response. -/
lemma handleUpstream_resp_json (url : Str) (r : UpstreamResponse)
    (response_data : Json)
    (hst : ¬ (400 ≤ r.status ∧ r.status < 600))
    (hrb : json_loads r.text = some response_data) :
    handleUpstream url (.response r) =
      match processResponseData response_data with
      | .ok resp => .resp resp
      | .error e =>
        .resp (mkResponse (json_dumps (upstreamError e url (some r.text))) 500 jsonHeaders) := by
  simp only [handleUpstream]
  rw [if_neg hst, hrb]

/-- A validated request with a configured environment, whose POST came back
with a status outside `[400, 600)` and a JSON body, ends in
`processResponseData` (with the outer `except` wrapping its exceptions). -/
lemma agentProxy_upstream (env : Option Str) (sid : Str) (req : Request)
    (kvs : List (Str × Json)) (qv cv : Json) (aid : Str) (r : UpstreamResponse)
    (response_data : Json)
    (hm : req.method = S "POST")
    (hb : json_loads req.body = some (.obj kvs))
    (hq : jsonLookup kvs (S "query") = some qv)
    (hc : jsonLookup kvs (S "constraint") = some cv)
    (henv : env = some aid) (haid : aid ≠ [])
    (hst : ¬ (400 ≤ r.status ∧ r.status < 600))
    (hrb : json_loads r.text = some response_data) :
    (agentProxy env sid req (.response r)).1 =
      match processResponseData response_data with
      | .ok resp => .resp resp
      | .error e =>
        .resp (mkResponse
          (json_dumps (upstreamError e (_API_BASE_URL ++ aid ++ S ":query") (some r.text)))
          500 jsonHeaders) := by
  rw [agentProxy_validated env sid req kvs qv cv _ hm hb hq hc, henv,
    postValidation_some aid haid sid qv cv _,
    handleUpstream_resp_json _ r response_data hst hrb]

/-- The extraction falls back exactly on the failure conditions: no brace,
wrong order, or the selected substring not parsing. -/
lemma extractAgentJson_fail (s : Str)
    (hfail : py_find s '\x7b' = none ∨ py_rfind s '\x7d' = none ∨
      (∀ i j, py_find s '\x7b' = some i → py_rfind s '\x7d' = some j → ¬ i < j) ∨
      (∃ i j, py_find s '\x7b' = some i ∧ py_rfind s '\x7d' = some j ∧ i < j ∧
        json_loads ((s.drop i).take (j + 1 - i)) = none)) :
    extractAgentJson (.str s) = unparsable_fallback s := by
  simp only [extractAgentJson]
  rcases hfail with h | h | h | h
  · rw [h]
  · rw [h]
    cases py_find s '\x7b' <;> rfl
  · cases hf : py_find s '\x7b' with
    | none => cases py_rfind s '\x7d' <;> rfl
    | some i =>
      cases hr : py_rfind s '\x7d' with
      | none => rfl
      | some j => simp [h i j hf hr]
  · obtain ⟨i, j, hf, hr, hij, hparse⟩ := h
    rw [hf, hr]
    simp [hij, hparse]

/-! ## Claim C4 -/

/-- The fallback body exactly as the claim (and spec §8) words it, with a
lowercase note.  Modelled from the spec: used only to exhibit that the code's
body differs from the claimed one. -/
def spec_claimed_fallback (output : Str) : Json :=
  .obj [(S "response", .str output),
        (S "note", .str (S "agent returned unparsable text response"))]

/-- A shared concrete agent id for counterexample/witness runs. -/
def agentId0 : Str := S "projects/p/locations/us-central1/reasoningEngines/123"

/-- A shared concrete valid request for counterexample/witness runs. -/
def reqGood : Request :=
  ⟨S "POST", S "\x7b\"query\": \"make soup\", \"constraint\": \"vegan\"\x7d"⟩

/-- **C4 (counterexample).** On a brace-free output the proxy does return
200, but the note field is capitalized `Agent returned unparsable text
response` (main.py line 152), not the claimed lowercase `agent returned
unparsable text response`: the claimed body differs from the actual body. -/
theorem c4_counterexample :
    (agentProxy (some agentId0) (S "s") reqGood
        (.response ⟨200, S "OK", S "\x7b\"output\": \"no braces\"\x7d"⟩)).1 =
      .resp (mkResponse (json_dumps (unparsable_fallback (S "no braces"))) 200 jsonHeaders) ∧
    json_dumps (unparsable_fallback (S "no braces")) ≠
      json_dumps (spec_claimed_fallback (S "no braces")) :=
  ⟨rfl, by decide⟩

/-- **C4 (amended).** For every upstream 2xx (or 3xx) reply whose JSON body
is an object whose `output` is a string with no `'\x7b'`, or no `'\x7d'`, or
the braces in the wrong order, or whose first-to-last-brace substring fails
to parse, `agentProxy` returns HTTP 200 with body exactly
`{"response": <output>, "note": "Agent returned unparsable text response"}`
(the note is capitalized, unlike the claim's wording). -/
theorem c4_unparsable_to_200 (env : Option Str) (sid : Str) (req : Request)
    (kvs : List (Str × Json)) (qv cv : Json) (aid : Str) (r : UpstreamResponse)
    (okvs : List (Str × Json)) (s : Str)
    (hm : req.method = S "POST")
    (hb : json_loads req.body = some (.obj kvs))
    (hq : jsonLookup kvs (S "query") = some qv)
    (hc : jsonLookup kvs (S "constraint") = some cv)
    (henv : env = some aid) (haid : aid ≠ [])
    (hst : ¬ (400 ≤ r.status ∧ r.status < 600))
    (hrb : json_loads r.text = some (.obj okvs))
    (hout : jsonLookup okvs (S "output") = some (.str s))
    (hfail : py_find s '\x7b' = none ∨ py_rfind s '\x7d' = none ∨
      (∀ i j, py_find s '\x7b' = some i → py_rfind s '\x7d' = some j → ¬ i < j) ∨
      (∃ i j, py_find s '\x7b' = some i ∧ py_rfind s '\x7d' = some j ∧ i < j ∧
        json_loads ((s.drop i).take (j + 1 - i)) = none)) :
    (agentProxy env sid req (.response r)).1 =
      .resp (mkResponse (json_dumps (unparsable_fallback s)) 200 jsonHeaders) := by
  rw [agentProxy_upstream env sid req kvs qv cv aid r (.obj okvs) hm hb hq hc henv haid hst hrb]
  rw [processResponseData_output okvs (.str s) hout, extractAgentJson_fail s hfail]

/-- **C4 (witness).** A concrete run whose agent output has no braces. -/
theorem c4_unparsable_to_200_witness :
    (agentProxy (some agentId0) (S "s4") reqGood
        (.response ⟨200, S "OK", S "\x7b\"output\": \"plain text answer\"\x7d"⟩)).1 =
      .resp (mkResponse (json_dumps (unparsable_fallback (S "plain text answer"))) 200 jsonHeaders) :=
  c4_unparsable_to_200 (some agentId0) (S "s4") reqGood
    [(S "query", .str (S "make soup")), (S "constraint", .str (S "vegan"))]
    (.str (S "make soup")) (.str (S "vegan")) agentId0
    ⟨200, S "OK", S "\x7b\"output\": \"plain text answer\"\x7d"⟩
    [(S "output", .str (S "plain text answer"))] (S "plain text answer")
    rfl rfl rfl rfl rfl (by decide) (by decide) rfl rfl (Or.inl rfl)

/-! ## Claim C10 -/

/-- **C10.** On successful extraction the parsed value is serialized and
returned as-is with HTTP 200 — no check for the four contract keys: any
non-string `output` value is passed through directly, and any string
`output` whose outermost brace span parses is replaced by the parsed value,
whatever its keys. -/
theorem c10_no_contract_check (env : Option Str) (sid : Str) (req : Request)
    (kvs : List (Str × Json)) (qv cv : Json) (aid : Str) (r : UpstreamResponse)
    (okvs : List (Str × Json)) (v : Json)
    (hm : req.method = S "POST")
    (hb : json_loads req.body = some (.obj kvs))
    (hq : jsonLookup kvs (S "query") = some qv)
    (hc : jsonLookup kvs (S "constraint") = some cv)
    (henv : env = some aid) (haid : aid ≠ [])
    (hst : ¬ (400 ≤ r.status ∧ r.status < 600))
    (hrb : json_loads r.text = some (.obj okvs))
    (hout : jsonLookup okvs (S "output") = some v) :
    ((∀ s : Str, v ≠ .str s) →
      (agentProxy env sid req (.response r)).1 =
        .resp (mkResponse (json_dumps v) 200 jsonHeaders)) ∧
    (∀ (s : Str) (i j : Nat) (w : Json), v = .str s →
      py_find s '\x7b' = some i → py_rfind s '\x7d' = some j → i < j →
      json_loads ((s.drop i).take (j + 1 - i)) = some w →
      (agentProxy env sid req (.response r)).1 =
        .resp (mkResponse (json_dumps w) 200 jsonHeaders)) := by
  have base := agentProxy_upstream env sid req kvs qv cv aid r (.obj okvs)
    hm hb hq hc henv haid hst hrb
  constructor
  · intro hns
    rw [base, processResponseData_output okvs v hout]
    have hv : extractAgentJson v = v := by
      cases v <;> first
        | rfl
        | exact absurd rfl (hns _)
    rw [hv]
  · intro s i j w hv hf hr hij hparse
    subst hv
    rw [base, processResponseData_output okvs (.str s) hout]
    have hx : extractAgentJson (.str s) = w := by
      simp only [extractAgentJson]
      rw [hf, hr]
      simp [hij, hparse]
    rw [hx]

/-- **C10 (witness).** The agent returning the empty object — none of the
four contract keys — is forwarded verbatim with status 200. -/
theorem c10_no_contract_check_witness :
    (agentProxy (some agentId0) (S "sX") reqGood
        (.response ⟨200, S "OK", S "\x7b\"output\": \x7b\x7d\x7d"⟩)).1 =
      .resp (mkResponse (json_dumps (.obj [])) 200 jsonHeaders) :=
  (c10_no_contract_check (some agentId0) (S "sX") reqGood
    [(S "query", .str (S "make soup")), (S "constraint", .str (S "vegan"))]
    (.str (S "make soup")) (.str (S "vegan")) agentId0
    ⟨200, S "OK", S "\x7b\"output\": \x7b\x7d\x7d"⟩
    [(S "output", .obj [])] (.obj [])
    rfl rfl rfl rfl rfl (by decide) (by decide) rfl rfl).1
    (by intro s h; exact Json.noConfusion h)

/-! ## Claim C1 -/

/-- `processResponseData` on any dict body returns a 200 response (never an
exception), whatever the dict contains. -/
lemma processResponseData_obj_ok (okvs : List (Str × Json)) :
    ∃ resp, processResponseData (.obj okvs) = .ok resp ∧ resp.status = 200 := by
  cases hout : jsonLookup okvs (S "output") with
  | some v => exact ⟨_, processResponseData_output okvs v hout, rfl⟩
  | none => exact ⟨_, processResponseData_no_output okvs hout, rfl⟩

/-- **C1 (counterexample).** The claim says a 2xx upstream reply always
yields 200.  A 2xx reply whose body is not JSON at all (`"hello"`) makes
`response.json()` raise, the outer `except` catches it, and the proxy
returns 500 even though the upstream call succeeded at the HTTP level. -/
theorem c1_counterexample :
    ∃ resp, (agentProxy (some agentId0) (S "s") reqGood
        (.response ⟨200, S "OK", S "hello"⟩)).1 = .resp resp ∧ resp.status = 500 :=
  ⟨_, rfl, rfl⟩

/-- **C1 (amended).** For a validated request with configured environment:
every upstream reply with 2xx status whose body parses to a JSON object gets
HTTP 200 regardless of the object's shape; and a 500 response arises only
from a transport failure, an HTTP status in the `raise_for_status` range
(`400 ≤ status`), or a body that does not parse to a JSON object. -/
theorem c1_status_mapping (env : Option Str) (sid : Str) (req : Request)
    (kvs : List (Str × Json)) (qv cv : Json) (aid : Str) (up : UpstreamOutcome)
    (hm : req.method = S "POST")
    (hb : json_loads req.body = some (.obj kvs))
    (hq : jsonLookup kvs (S "query") = some qv)
    (hc : jsonLookup kvs (S "constraint") = some cv)
    (henv : env = some aid) (haid : aid ≠ []) :
    (∀ (r : UpstreamResponse) (okvs : List (Str × Json)),
       up = .response r → 200 ≤ r.status → r.status < 300 →
       json_loads r.text = some (.obj okvs) →
       ∃ resp, (agentProxy env sid req up).1 = .resp resp ∧ resp.status = 200) ∧
    (∀ resp, (agentProxy env sid req up).1 = .resp resp → resp.status = 500 →
       (∃ m, up = .transportError m) ∨
       (∃ r, up = .response r ∧
          (400 ≤ r.status ∨ ∀ okvs, json_loads r.text ≠ some (.obj okvs)))) := by
  constructor
  · intro r okvs hup h2a h2b hrb
    subst hup
    obtain ⟨resp, hok, h200⟩ := processResponseData_obj_ok okvs
    refine ⟨resp, ?_, h200⟩
    rw [agentProxy_upstream env sid req kvs qv cv aid r (.obj okvs)
      hm hb hq hc henv haid (by omega) hrb, hok]
  · intro resp hresp h500
    cases up with
    | transportError m => exact Or.inl ⟨m, rfl⟩
    | response r =>
      refine Or.inr ⟨r, rfl, ?_⟩
      by_cases hst : 400 ≤ r.status
      · exact Or.inl hst
      · right
        intro okvs hcontra
        obtain ⟨resp', hok, h200⟩ := processResponseData_obj_ok okvs
        rw [agentProxy_upstream env sid req kvs qv cv aid r (.obj okvs)
          hm hb hq hc henv haid (by omega) hcontra, hok] at hresp
        have heq : resp' = resp := by injection hresp
        have h2 : resp.status = 200 := heq ▸ h200
        omega

/-- **C1 (witness).** A 2xx reply whose object body has none of the expected
fields still yields HTTP 200. -/
theorem c1_status_mapping_witness :
    ∃ resp, (agentProxy (some agentId0) (S "s1") reqGood
        (.response ⟨200, S "OK", S "\x7b\"weird\": true\x7d"⟩)).1 = .resp resp ∧
      resp.status = 200 :=
  (c1_status_mapping (some agentId0) (S "s1") reqGood
    [(S "query", .str (S "make soup")), (S "constraint", .str (S "vegan"))]
    (.str (S "make soup")) (.str (S "vegan")) agentId0 _
    rfl rfl rfl rfl rfl (by decide)).1
    ⟨200, S "OK", S "\x7b\"weird\": true\x7d"⟩ [(S "weird", .bool true)]
    rfl (by decide) (by decide) rfl

/-! ## Claim C8 -/

/-- Building a response with the JSON headers keeps exactly those headers
(Content-Type is present, so no default is added). -/
lemma mkResponse_jsonHeaders (b : Str) (st : Nat) :
    (mkResponse b st jsonHeaders).headers = jsonHeaders := by
  simp only [mkResponse]
  rw [if_pos (by decide)]

/-- Every response `processResponseData` produces carries the JSON headers. -/
lemma processResponseData_ok_headers (rd : Json) (resp : Resp)
    (h : processResponseData rd = .ok resp) : resp.headers = jsonHeaders := by
  unfold processResponseData at h
  cases hc : pyContains rd (S "output") with
  | error e =>
    rw [hc] at h
    simp [bind, Except.bind] at h
  | ok b =>
    rw [hc] at h
    cases b with
    | false =>
      simp [bind, Except.bind, pure, Except.pure] at h
      rw [← h, mkResponse_jsonHeaders]
    | true =>
      cases hg : pyGetItem rd (S "output") with
      | error e =>
        simp [bind, Except.bind, hg] at h
      | ok output =>
        simp [bind, Except.bind, hg, pure, Except.pure] at h
        rw [← h, mkResponse_jsonHeaders]

/-- Every response `handleUpstream` produces carries the JSON headers. -/
lemma handleUpstream_headers (url : Str) (up : UpstreamOutcome) (resp : Resp)
    (h : handleUpstream url up = .resp resp) : resp.headers = jsonHeaders := by
  unfold handleUpstream at h
  split at h
  · injection h with h'
    subst h'
    exact mkResponse_jsonHeaders _ _
  · split at h
    · injection h with h'
      subst h'
      exact mkResponse_jsonHeaders _ _
    · split at h
      · injection h with h'
        subst h'
        exact mkResponse_jsonHeaders _ _
      · split at h
        · rename_i heq
          injection h with h'
          subst h'
          exact processResponseData_ok_headers _ _ heq
        · injection h with h'
          subst h'
          exact mkResponse_jsonHeaders _ _

/-- Every response coming out of `postValidation` carries the JSON headers. -/
lemma postValidation_headers (env : Option Str) (sid : Str) (q c : Json)
    (up : UpstreamOutcome) (resp : Resp)
    (h : (postValidation env sid q c up).1 = .resp resp) :
    resp.headers = jsonHeaders := by
  unfold postValidation at h
  split at h
  · simp only [Outcome.resp.injEq] at h
    rw [← h, mkResponse_jsonHeaders]
  · split at h
    · simp only [Outcome.resp.injEq] at h
      rw [← h, mkResponse_jsonHeaders]
    · exact handleUpstream_headers _ _ _ h

/-- Every response `agentProxy` emits on the `POST` path carries the JSON
headers dict of main.py lines 59-62. -/
lemma agentProxy_post_headers (env : Option Str) (sid : Str) (req : Request)
    (up : UpstreamOutcome) (resp : Resp)
    (hm : req.method = S "POST")
    (h : (agentProxy env sid req up).1 = .resp resp) :
    resp.headers = jsonHeaders := by
  unfold agentProxy at h
  rw [hm, if_neg (by decide), if_neg (by decide)] at h
  split at h
  · simp only [Outcome.resp.injEq] at h
    rw [← h, mkResponse_jsonHeaders]
  · split at h
    · simp only [Outcome.resp.injEq] at h
      rw [← h, mkResponse_jsonHeaders]
    · split at h
      · simp at h
      · simp only [Outcome.resp.injEq] at h
        rw [← h, mkResponse_jsonHeaders]
      · split at h
        · simp at h
        · split at h
          · simp at h
          · exact postValidation_headers _ _ _ _ _ _ h

/-- **C8 (counterexample).** The claim says every response carries
`Content-Type: application/json` and `Access-Control-Allow-Origin: *`.  The
405 response (main.py line 57) is built with no headers at all: it carries
neither (only Flask's default text/html content type). -/
theorem c8_counterexample :
    (agentProxy none (S "s") ⟨S "GET", []⟩ (.transportError [])).1 =
      .resp (mkResponse (S "Method Not Allowed") 405 []) ∧
    (S "Content-Type", S "application/json") ∉
      (mkResponse (S "Method Not Allowed") 405 []).headers ∧
    (S "Access-Control-Allow-Origin", S "*") ∉
      (mkResponse (S "Method Not Allowed") 405 []).headers :=
  ⟨rfl, by decide, by decide⟩

/-- **C8 (amended).** Every JSON-bodied response — the 400 validation error,
both 500 errors, and every 200 from the upstream-processing path — carries
`Content-Type: application/json` and `Access-Control-Allow-Origin: *`.  The
two non-POST paths do not: the OPTIONS preflight carries the permissive CORS
headers but not the JSON content type, and the 405 response carries neither
header. -/
theorem c8_headers (env : Option Str) (sid : Str) (req : Request)
    (up : UpstreamOutcome) :
    (req.method = S "OPTIONS" →
       (agentProxy env sid req up).1 = .resp (mkResponse [] 200 optionsHeaders) ∧
       (S "Access-Control-Allow-Origin", S "*") ∈ (mkResponse [] 200 optionsHeaders).headers ∧
       (S "Content-Type", S "application/json") ∉ (mkResponse [] 200 optionsHeaders).headers) ∧
    (req.method ≠ S "OPTIONS" → req.method ≠ S "POST" →
       (agentProxy env sid req up).1 = .resp (mkResponse (S "Method Not Allowed") 405 []) ∧
       (S "Access-Control-Allow-Origin", S "*") ∉
         (mkResponse (S "Method Not Allowed") 405 []).headers ∧
       (S "Content-Type", S "application/json") ∉
         (mkResponse (S "Method Not Allowed") 405 []).headers) ∧
    (req.method = S "POST" → ∀ resp, (agentProxy env sid req up).1 = .resp resp →
       (S "Content-Type", S "application/json") ∈ resp.headers ∧
       (S "Access-Control-Allow-Origin", S "*") ∈ resp.headers) := by
  refine ⟨?_, ?_, ?_⟩
  · intro hm
    refine ⟨?_, by decide, by decide⟩
    unfold agentProxy
    rw [hm, if_pos rfl]
  · intro h1 h2
    refine ⟨?_, by decide, by decide⟩
    unfold agentProxy
    rw [if_neg h1, if_pos h2]
  · intro hm resp h
    rw [agentProxy_post_headers env sid req up resp hm h]
    exact ⟨by decide, by decide⟩

/-- **C8 (witness).** The OPTIONS preflight at a concrete request: CORS
header present, JSON content type absent. -/
theorem c8_headers_witness :
    (agentProxy none (S "s8") ⟨S "OPTIONS", []⟩ (.transportError [])).1 =
      .resp (mkResponse [] 200 optionsHeaders) ∧
    (S "Access-Control-Allow-Origin", S "*") ∈ (mkResponse [] 200 optionsHeaders).headers ∧
    (S "Content-Type", S "application/json") ∉ (mkResponse [] 200 optionsHeaders).headers :=
  (c8_headers none (S "s8") ⟨S "OPTIONS", []⟩ (.transportError [])).1 rfl

/-! ## Counting substring occurrences (for the prompt-section claims) -/

/-- Number of positions of `s` at which `pat` occurs as a prefix of the
corresponding suffix. -/
def countOcc (pat : Str) : Str → Nat
  | [] => 0
  | c :: rest => (if pat.isPrefixOf (c :: rest) then 1 else 0) + countOcc pat rest

/-- `true` when the first character of `b` (if any) is not a character of
`pat`: a match of `pat` can then never straddle a boundary `a ++ b` from the
left side. -/
def headCharNotIn (b pat : Str) : Bool :=
  match b with
  | [] => true
  | hd :: _ => !(decide (hd ∈ pat))

/-- `true` when the last character of `a` (if any) is not a character of
`pat`: a match of `pat` can then never straddle a boundary `a ++ b` into the
right side. -/
def lastCharNotIn (a pat : Str) : Bool :=
  match a.getLast? with
  | none => true
  | some ld => !(decide (ld ∈ pat))

lemma headCharNotIn_tail {hd : Char} {t pat : Str}
    (h : headCharNotIn (hd :: t) pat = true) : hd ∉ pat := by
  simpa only [headCharNotIn, Bool.not_eq_true', decide_eq_false_iff_not] using h

/-- With `b`'s head outside `pat`, prefixing `b` changes nothing about
`pat` being a prefix. -/
lemma isPrefixOf_append_right (b : Str) :
    ∀ pat : Str, headCharNotIn b pat = true →
      ∀ a : Str, pat.isPrefixOf (a ++ b) = pat.isPrefixOf a := by
  intro pat
  induction pat with
  | nil => intro _ a; simp [List.isPrefixOf]
  | cons p ps ih =>
    intro h a
    have hps : headCharNotIn b ps = true := by
      cases b with
      | nil => rfl
      | cons hd t =>
        have := headCharNotIn_tail h
        simp only [headCharNotIn, Bool.not_eq_true', decide_eq_false_iff_not]
        intro hmem
        exact this (List.mem_cons_of_mem _ hmem)
    cases a with
    | nil =>
      cases b with
      | nil => rfl
      | cons hd t =>
        have hne : hd ∉ p :: ps := headCharNotIn_tail h
        have hpd : (p == hd) = false := by
          rw [beq_eq_false_iff_ne]
          intro hpe
          exact hne (by simp [← hpe])
        simp [List.isPrefixOf, hpd]
    | cons a₀ a' =>
      simp only [List.cons_append, List.isPrefixOf, List.append_eq]
      rw [ih hps a']

/-- With `a`'s last character outside `pat` and `a` nonempty, appending `b`
changes nothing about `pat` being a prefix of `a`. -/
lemma isPrefixOf_append_left (b : Str) :
    ∀ (t pat : Str), t ≠ [] → lastCharNotIn t pat = true →
      pat.isPrefixOf (t ++ b) = pat.isPrefixOf t := by
  intro t
  induction t with
  | nil => intro pat hne _; exact absurd rfl hne
  | cons x t' ih =>
    intro pat _ h
    cases t' with
    | nil =>
      have hx : ∀ p ps, pat = p :: ps → (p == x) = false := by
        intro p ps hpat
        subst hpat
        simp only [lastCharNotIn, List.getLast?_singleton, Bool.not_eq_true',
          decide_eq_false_iff_not] at h
        rw [beq_eq_false_iff_ne]
        intro hpe
        exact h (by simp [← hpe])
      cases pat with
      | nil => rfl
      | cons p ps => simp [List.isPrefixOf, hx p ps rfl]
    | cons y t'' =>
      have hlast : lastCharNotIn (y :: t'') pat = true := by
        simpa only [lastCharNotIn, List.getLast?_cons_cons] using h
      cases pat with
      | nil => rfl
      | cons p ps =>
        have hps : lastCharNotIn (y :: t'') ps = true := by
          cases hg : (y :: t'').getLast? with
          | none => simp [lastCharNotIn, hg]
          | some ld =>
            have hmem : ld ∉ p :: ps := by
              have h2 := hlast
              simp only [lastCharNotIn, hg, Bool.not_eq_true',
                decide_eq_false_iff_not] at h2
              exact h2
            simp only [lastCharNotIn, hg, Bool.not_eq_true', decide_eq_false_iff_not]
            intro hm
            exact hmem (List.mem_cons_of_mem _ hm)
        have hih := ih ps (by simp) hps
        simp only [List.cons_append] at hih
        simp only [List.cons_append, List.isPrefixOf, List.append_eq]
        rw [hih]

/-- Occurrence counting distributes over `a ++ b` when `b` starts with a
character outside `pat`. -/
lemma countOcc_append_of_head (pat a b : Str) (h : headCharNotIn b pat = true) :
    countOcc pat (a ++ b) = countOcc pat a + countOcc pat b := by
  induction a with
  | nil => simp [countOcc]
  | cons x a' ih =>
    have hpre := isPrefixOf_append_right b pat h (x :: a')
    simp only [List.cons_append] at hpre
    simp only [List.cons_append, countOcc, List.append_eq]
    simp only [hpre]
    rw [ih]
    omega

/-- Occurrence counting distributes over `a ++ b` when `a` ends with a
character outside `pat`. -/
lemma countOcc_append_of_last (pat a b : Str) (h : lastCharNotIn a pat = true) :
    countOcc pat (a ++ b) = countOcc pat a + countOcc pat b := by
  induction a with
  | nil => simp [countOcc]
  | cons x a' ih =>
    have hpre := isPrefixOf_append_left b (x :: a') pat (by simp) h
    simp only [List.cons_append] at hpre
    simp only [List.cons_append, countOcc, List.append_eq]
    simp only [hpre]
    cases a' with
    | nil => simp [countOcc]
    | cons y a'' =>
      have h' : lastCharNotIn (y :: a'') pat = true := by
        simpa only [lastCharNotIn, List.getLast?_cons_cons] using h
      rw [ih h']
      omega

/-- A nonempty pattern occurring literally (`s = a ++ pat ++ b`) is counted
at least once. -/
lemma countOcc_pos_of_split (pat a b : Str) (hne : pat ≠ []) :
    0 < countOcc pat (a ++ (pat ++ b)) := by
  induction a with
  | nil =>
    cases pat with
    | nil => exact absurd rfl hne
    | cons p ps =>
      have hself : ∀ (q : Char) (qs z : Str), (q :: qs).isPrefixOf ((q :: qs) ++ z) = true := by
        intro q qs
        induction qs generalizing q with
        | nil => intro z; simp [List.isPrefixOf]
        | cons w ws ih => intro z; simp [List.isPrefixOf, ih w z]
      have := hself p ps b
      simp only [List.cons_append] at this
      simp only [List.nil_append, List.cons_append, countOcc, List.append_eq, this]
      simp
  | cons x a' ih =>
    simp only [List.cons_append, countOcc, List.append_eq] at ih ⊢
    omega

/-! ## Decomposition of the formatted prompt -/

lemma splitLines_no_newline (l : Str) (hl : '\n' ∉ l) : splitLines l = [l] := by
  induction l with
  | nil => rfl
  | cons c rest ih =>
    have hc : ¬ c = '\n' := fun h => hl (by simp [h])
    have hr : '\n' ∉ rest := fun h => hl (List.mem_cons_of_mem _ h)
    rw [splitLines, if_neg hc, ih hr]

lemma splitLines_line_append (l : Str) (hl : '\n' ∉ l) (r : Str) :
    splitLines (l ++ '\n' :: r) = l :: splitLines r := by
  induction l with
  | nil => simp [splitLines]
  | cons c rest ih =>
    have hc : ¬ c = '\n' := fun h => hl (by simp [h])
    have hr : '\n' ∉ rest := fun h => hl (List.mem_cons_of_mem _ h)
    simp only [List.cons_append]
    rw [splitLines, if_neg hc, ih hr]

lemma joinLines_cons_cons (l l' : Str) (ls : List Str) :
    joinLines (l :: l' :: ls) = l ++ '\n' :: joinLines (l' :: ls) := rfl

/-- `splitLines` is a left inverse of `joinLines` on newline-free lines. -/
lemma splitLines_joinLines : ∀ L : List Str, (∀ l ∈ L, '\n' ∉ l) → L ≠ [] →
    splitLines (joinLines L) = L := by
  intro L
  induction L with
  | nil => intro _ h; exact absurd rfl h
  | cons l ls ih =>
    intro hL _
    cases ls with
    | nil => exact splitLines_no_newline l (hL l (by simp))
    | cons l' ls' =>
      rw [joinLines_cons_cons, splitLines_line_append l (hL l (by simp))]
      rw [ih (fun x hx => hL x (List.mem_cons_of_mem _ hx)) (by simp)]

lemma commonPre_self (x : Str) : commonPre x x = x := by
  induction x with
  | nil => rfl
  | cons c rest ih => simp [commonPre, ih]

/-- `takeWhile` ignores an appended tail when the first part already
contains a failing element. -/
lemma takeWhile_append_of_any (p : Char → Bool) :
    ∀ a x : Str, a.any (fun c => !p c) = true →
      (a ++ x).takeWhile p = a.takeWhile p := by
  intro a
  induction a with
  | nil => intro x h; simp at h
  | cons c rest ih =>
    intro x h
    by_cases hc : p c
    · have hrest : rest.any (fun c => !p c) = true := by
        simp only [List.any_cons, hc, Bool.not_true, Bool.false_or] at h
        exact h
      simp [List.takeWhile_cons, hc, ih x hrest]
    · simp [List.takeWhile_cons, hc]

/-- The indent `textwrap.dedent` records for a line made of a contentful
constant part and an arbitrary tail. -/
lemma lineIndent_append (A x : Str) (hA : A.any (fun c => !isSpTab c) = true) :
    lineIndent (A ++ x) = some (A.takeWhile isSpTab) := by
  unfold lineIndent
  rw [if_pos (by simp [List.any_append, hA]), takeWhile_append_of_any _ A x hA]

/-- A prefix is recognized by `isPrefixOf`. -/
lemma isPrefixOf_append_self : ∀ m y : Str, m.isPrefixOf (m ++ y) = true := by
  intro m
  induction m with
  | nil => intro y; simp [List.isPrefixOf]
  | cons c rest ih => intro y; simp [List.isPrefixOf, ih]

/-- Stripping the margin from a line of shape `(margin ++ B) ++ x` with
contentful `B`. -/
lemma stripLine_of_parts (m B x : Str) (hB : B.any (fun c => !isSpTab c) = true) :
    stripLine m ((m ++ B) ++ x) = B ++ x := by
  unfold stripLine
  have hall : ((m ++ B) ++ x).all isSpTab = false := by
    have hBall : B.all isSpTab = false := by
      rcases List.any_eq_true.mp hB with ⟨c, hc, hpc⟩
      rw [List.all_eq_false]
      exact ⟨c, hc, by simpa using hpc⟩
    rw [List.all_append, List.all_append, hBall]
    simp
  rw [if_neg (by rw [hall]; simp), List.append_assoc]
  rw [if_pos (isPrefixOf_append_self m (B ++ x)), List.drop_left]

/-- `dropWhile` keeps a list whose head fails the predicate. -/
lemma dropWhile_append_stay (p : Char → Bool) (a b : Str)
    (ha : a.dropWhile p = a) (hne : a ≠ []) :
    (a ++ b).dropWhile p = a ++ b := by
  cases a with
  | nil => exact absurd rfl hne
  | cons x a' =>
    have hx : p x = false := by
      by_contra hpx
      have hpx' : p x = true := by
        cases hpp : p x with
        | false => exact absurd hpp hpx
        | true => rfl
      rw [List.dropWhile_cons, if_pos hpx'] at ha
      have hle := (List.dropWhile_sublist (l := a') p).length_le
      have hlen : (a'.dropWhile p).length = (x :: a').length := by rw [ha]
      simp at hlen
      omega
    simp [List.cons_append, List.dropWhile_cons, hx]

/-- The prompt text before the session id (after dedent and strip). -/
def T0 : Str := S "SESSION_ID: "

/-- The prompt text between the session id and the query
(`"\n\nOBSERVE:\n- Capture the incoming request exactly as received.\n- Request: \""`). -/
def T1 : Str :=
  '\n' :: '\n' :: (S "OBSERVE:" ++ '\n' ::
    (S "- Capture the incoming request exactly as received." ++ '\n' ::
      S "- Request: \""))

/-- The prompt text between the query and the constraint
(`"\"\n- Constraint: \""`). -/
def T2 : Str := '"' :: '\n' :: S "- Constraint: \""

/-- The prompt text after the constraint: the closing quote, then the
REFLECT and LOOP sections through `"...ready to execute."`. -/
def T3 : Str :=
  '"' :: '\n' :: '\n' :: (S "REFLECT:" ++ '\n' ::
    (S "- Review the observation for missing context (missing steps, conflicting instructions)." ++ '\n' ::
      (S "- Call out any tensions or nutrition trade-offs before planning." ++ '\n' :: '\n' ::
        (S "LOOP:" ++ '\n' ::
          (S "- Produce a corrected cooking plan that explicitly mentions how you honored the constraint." ++ '\n' ::
            (S "- Highlight a single self-correction you made after your reflection." ++ '\n' ::
              (S "- **The ONLY output you provide MUST be a valid, unadulterated JSON object.**" ++ '\n' ::
                (S "- Answer in JSON with keys: plan (array of steps), constraint_ack (string), self_corrections (string), session_id (string)." ++ '\n' ::
                  S "- Close the loop by confirming the plan is ready to execute."))))))))

/-- The lines of the raw template after `textwrap.dedent` strips the
eight-space margin (blank-ish lines normalised to empty). -/
def dedentedLines (query constraint_sec sid : Str) : List Str :=
  [ [],
    S "SESSION_ID: " ++ sid,
    [],
    S "OBSERVE:",
    S "- Capture the incoming request exactly as received.",
    S "- Request: \"" ++ query ++ [ '"' ],
    S "- Constraint: \"" ++ constraint_sec ++ [ '"' ],
    [],
    S "REFLECT:",
    S "- Review the observation for missing context (missing steps, conflicting instructions).",
    S "- Call out any tensions or nutrition trade-offs before planning.",
    [],
    S "LOOP:",
    S "- Produce a corrected cooking plan that explicitly mentions how you honored the constraint.",
    S "- Highlight a single self-correction you made after your reflection.",
    S "- **The ONLY output you provide MUST be a valid, unadulterated JSON object.**",
    S "- Answer in JSON with keys: plan (array of steps), constraint_ack (string), self_corrections (string), session_id (string).",
    S "- Close the loop by confirming the plan is ready to execute.",
    [] ]

/-- The margin `textwrap.dedent` computes for the interpolated template is
the eight-space indentation, whatever the interpolated values are (every
content line starts with exactly eight spaces and then a non-whitespace
character from the fixed template text). -/
lemma computeMargin_rawLines (q c sid : Str) :
    computeMargin (rawLines q c sid) = S "        " := by
  have h1 : lineIndent ([] : Str) = none := by decide
  have h2 : lineIndent (S "        SESSION_ID: " ++ sid) = some (S "        ") := by
    rw [lineIndent_append _ _ (by decide)]
    decide
  have h6 : lineIndent (S "        - Request: \"" ++ q ++ ['"']) = some (S "        ") := by
    rw [List.append_assoc, lineIndent_append _ _ (by decide)]
    decide
  have h7 : lineIndent (S "        - Constraint: \"" ++ c ++ ['"']) = some (S "        ") := by
    rw [List.append_assoc, lineIndent_append _ _ (by decide)]
    decide
  unfold computeMargin rawLines
  simp only [List.filterMap_cons, h1, h2, h6, h7,
    show lineIndent (S "        OBSERVE:") = some (S "        ") from by decide,
    show lineIndent (S "        - Capture the incoming request exactly as received.") = some (S "        ") from by decide,
    show lineIndent (S "        REFLECT:") = some (S "        ") from by decide,
    show lineIndent (S "        - Review the observation for missing context (missing steps, conflicting instructions).") = some (S "        ") from by decide,
    show lineIndent (S "        - Call out any tensions or nutrition trade-offs before planning.") = some (S "        ") from by decide,
    show lineIndent (S "        LOOP:") = some (S "        ") from by decide,
    show lineIndent (S "        - Produce a corrected cooking plan that explicitly mentions how you honored the constraint.") = some (S "        ") from by decide,
    show lineIndent (S "        - Highlight a single self-correction you made after your reflection.") = some (S "        ") from by decide,
    show lineIndent (S "        - **The ONLY output you provide MUST be a valid, unadulterated JSON object.**") = some (S "        ") from by decide,
    show lineIndent (S "        - Answer in JSON with keys: plan (array of steps), constraint_ack (string), self_corrections (string), session_id (string).") = some (S "        ") from by decide,
    show lineIndent (S "        - Close the loop by confirming the plan is ready to execute.") = some (S "        ") from by decide,
    show lineIndent (S "        ") = none from by decide,
    List.filterMap_nil]
  simp only [List.foldl_cons, List.foldl_nil, commonPre_self]

/-- Dedenting the interpolated template strips exactly the eight-space
margin from every content line (the interpolated parts being single-line). -/
lemma dedent_rawMessage (q c sid : Str) (hq : '\n' ∉ q) (hc : '\n' ∉ c)
    (hs : '\n' ∉ sid) :
    dedent (rawMessage q c sid) = joinLines (dedentedLines q c sid) := by
  have hm : ∀ l ∈ rawLines q c sid, '\n' ∉ l := by
    intro l hl
    simp only [rawLines, List.mem_cons, List.not_mem_nil, or_false] at hl
    rcases hl with h | h | h | h | h | h | h | h | h | h | h | h | h | h | h | h | h | h | h <;>
      subst h <;>
      first
      | decide
      | (intro hmem
         rcases List.mem_append.mp hmem with h' | h'
         · revert h'
           decide
         · exact hs h')
      | (intro hmem
         rcases List.mem_append.mp hmem with h' | h'
         · rcases List.mem_append.mp h' with h'' | h''
           · revert h''
             decide
           · first
             | exact hq h''
             | exact hc h''
         · revert h'
           decide)
  simp only [dedent, rawMessage]
  rw [splitLines_joinLines (rawLines q c sid) hm (by simp [rawLines]),
    computeMargin_rawLines]
  congr 1

lemma joinLines_singleton (l : Str) : joinLines [l] = l := rfl

/-- Joining the dedented lines: a leading newline, the decomposed message
body, and a trailing newline. -/
lemma joinLines_dedented (q c sid : Str) :
    joinLines (dedentedLines q c sid) =
      '\n' :: ((T0 ++ sid ++ T1 ++ q ++ T2 ++ c ++ T3) ++ ['\n']) := by
  simp only [dedentedLines, joinLines_cons_cons, joinLines_singleton,
    T0, T1, T2, T3, List.nil_append, List.cons_append, List.append_assoc,
    List.append_nil, List.nil_append]

/-- The decomposition of `formatStr`: for single-line interpolants, the
formatted prompt is the fixed template text with the session id, query and
constraint section spliced in. -/
lemma formatStr_decomp (q c sid : Str) (hq : '\n' ∉ q) (hc : '\n' ∉ c)
    (hs : '\n' ∉ sid) :
    formatStr q c sid = T0 ++ sid ++ T1 ++ q ++ T2 ++ c ++ T3 := by
  unfold formatStr pstrip
  rw [dedent_rawMessage q c sid hq hc hs, joinLines_dedented]
  rw [List.dropWhile_cons, if_pos (by decide)]
  have hstay : ((T0 ++ sid ++ T1 ++ q ++ T2 ++ c ++ T3) ++ ['\n']).dropWhile isPyWs =
      (T0 ++ sid ++ T1 ++ q ++ T2 ++ c ++ T3) ++ ['\n'] := by
    rw [show (T0 ++ sid ++ T1 ++ q ++ T2 ++ c ++ T3) ++ ['\n'] =
        T0 ++ (sid ++ (T1 ++ (q ++ (T2 ++ (c ++ (T3 ++ ['\n'])))))) by
      simp [List.append_assoc]]
    rw [dropWhile_append_stay isPyWs T0 _ (by decide) (by decide)]
  rw [hstay]
  have h1 : ((T0 ++ sid ++ T1 ++ q ++ T2 ++ c ++ T3) ++ ['\n']).reverse =
      '\n' :: (T0 ++ sid ++ T1 ++ q ++ T2 ++ c ++ T3).reverse := by
    simp
  rw [h1, List.dropWhile_cons, if_pos (by decide)]
  have h2 : (T0 ++ sid ++ T1 ++ q ++ T2 ++ c ++ T3).reverse.dropWhile isPyWs =
      (T0 ++ sid ++ T1 ++ q ++ T2 ++ c ++ T3).reverse := by
    rw [show (T0 ++ sid ++ T1 ++ q ++ T2 ++ c ++ T3).reverse =
        T3.reverse ++ (c.reverse ++ (T2.reverse ++ (q.reverse ++
          (T1.reverse ++ (sid.reverse ++ T0.reverse))))) by
      simp [List.reverse_append, List.append_assoc]]
    rw [dropWhile_append_stay isPyWs T3.reverse _ (by decide) (by decide)]
  rw [h2, List.reverse_reverse]

/-- The last character of an append with nonempty right part comes from the
right part. -/
lemma lastCharNotIn_append (a b pat : Str) (hb : b ≠ []) :
    lastCharNotIn (a ++ b) pat = lastCharNotIn b pat := by
  unfold lastCharNotIn
  rw [List.getLast?_append]
  cases hg : b.getLast? with
  | none => exact absurd (List.getLast?_eq_none_iff.mp hg) hb
  | some ld => simp [Option.or]

/-- `_format_agent_message` on string inputs is `formatStr` with the
constraint replaced by the placeholder exactly when it is empty. -/
lemma format_str_inputs (q c sid : Str) :
    _format_agent_message (.str q) (.str c) sid =
      formatStr q (if c.isEmpty then placeholder else c) sid := by
  cases c with
  | nil => rfl
  | cons x cs => rfl

/-- Occurrences of a pattern in the decomposed message split across the
seven segments, provided the boundary characters (space, newline and the
double quote of the fixed template) are not characters of the pattern. -/
lemma countOcc_msg (pat q c sid : Str)
    (hT0l : lastCharNotIn T0 pat = true)
    (hT1h : headCharNotIn T1 pat = true)
    (hT1l : lastCharNotIn T1 pat = true)
    (hT2h : headCharNotIn T2 pat = true)
    (hT2l : lastCharNotIn T2 pat = true)
    (hT3h : headCharNotIn T3 pat = true) :
    countOcc pat (T0 ++ sid ++ T1 ++ q ++ T2 ++ c ++ T3) =
      countOcc pat T0 + countOcc pat sid + countOcc pat T1 + countOcc pat q +
        countOcc pat T2 + countOcc pat c + countOcc pat T3 := by
  rw [countOcc_append_of_head pat _ T3 hT3h]
  rw [countOcc_append_of_last pat _ c
    (by rw [lastCharNotIn_append _ T2 pat (by decide)]; exact hT2l)]
  rw [countOcc_append_of_head pat _ T2 hT2h]
  rw [countOcc_append_of_last pat _ q
    (by rw [lastCharNotIn_append _ T1 pat (by decide)]; exact hT1l)]
  rw [countOcc_append_of_head pat _ T1 hT1h]
  rw [countOcc_append_of_last pat T0 sid hT0l]

/-! ## Claim C6 -/

/-- **C6 (counterexample).** The claim promises exactly one OBSERVE section
for every request, but the query is interpolated verbatim: the query
`"OBSERVE"` makes the marker occur twice in the formatted prompt. -/
theorem c6_counterexample :
    countOcc (S "OBSERVE")
      (_format_agent_message (.str (S "OBSERVE")) (.str (S "vegan")) (S "abc")) = 2 ∧
    (2 : Nat) ≠ 1 := by
  constructor
  · decide
  · decide

/-- **C6 (amended).** For single-line query, constraint and session id none
of which contain the section markers, the formatted prompt contains exactly
one `OBSERVE`, one `REFLECT` and one `LOOP`, in that order, and contains the
query text verbatim.  (The function itself is a pure function of its three
arguments by construction.) -/
theorem c6_prompt_sections (q c sid : Str)
    (hqn : '\n' ∉ q) (hcn : '\n' ∉ c) (hsn : '\n' ∉ sid)
    (hq1 : countOcc (S "OBSERVE") q = 0) (hq2 : countOcc (S "REFLECT") q = 0)
    (hq3 : countOcc (S "LOOP") q = 0)
    (hc1 : countOcc (S "OBSERVE") c = 0) (hc2 : countOcc (S "REFLECT") c = 0)
    (hc3 : countOcc (S "LOOP") c = 0)
    (hs1 : countOcc (S "OBSERVE") sid = 0) (hs2 : countOcc (S "REFLECT") sid = 0)
    (hs3 : countOcc (S "LOOP") sid = 0) :
    countOcc (S "OBSERVE") (_format_agent_message (.str q) (.str c) sid) = 1 ∧
    countOcc (S "REFLECT") (_format_agent_message (.str q) (.str c) sid) = 1 ∧
    countOcc (S "LOOP") (_format_agent_message (.str q) (.str c) sid) = 1 ∧
    (∃ u v w x, _format_agent_message (.str q) (.str c) sid =
      u ++ S "OBSERVE" ++ (v ++ S "REFLECT" ++ (w ++ S "LOOP" ++ x))) ∧
    (∃ a b, _format_agent_message (.str q) (.str c) sid = a ++ q ++ b) := by
  set c' := if c.isEmpty then placeholder else c with hcP
  have hcn' : '\n' ∉ c' := by
    rw [hcP]
    split
    · decide
    · exact hcn
  have hc1' : countOcc (S "OBSERVE") c' = 0 := by
    rw [hcP]; split; · decide
    · exact hc1
  have hc2' : countOcc (S "REFLECT") c' = 0 := by
    rw [hcP]; split; · decide
    · exact hc2
  have hc3' : countOcc (S "LOOP") c' = 0 := by
    rw [hcP]; split; · decide
    · exact hc3
  rw [format_str_inputs, ← hcP, formatStr_decomp q c' sid hqn hcn' hsn]
  refine ⟨?_, ?_, ?_, ?_, ?_⟩
  · rw [countOcc_msg _ q c' sid (by decide) (by decide) (by decide) (by decide)
      (by decide) (by decide), hq1, hc1', hs1]
    decide
  · rw [countOcc_msg _ q c' sid (by decide) (by decide) (by decide) (by decide)
      (by decide) (by decide), hq2, hc2', hs2]
    decide
  · rw [countOcc_msg _ q c' sid (by decide) (by decide) (by decide) (by decide)
      (by decide) (by decide), hq3, hc3', hs3]
    decide
  · refine ⟨T0 ++ sid ++ ['\n', '\n'],
      S ":\n- Capture the incoming request exactly as received.\n- Request: \"" ++
        q ++ T2 ++ c' ++ S "\"\n\n",
      S ":\n- Review the observation for missing context (missing steps, conflicting instructions).\n- Call out any tensions or nutrition trade-offs before planning.\n\n",
      S ":\n- Produce a corrected cooking plan that explicitly mentions how you honored the constraint.\n- Highlight a single self-correction you made after your reflection.\n- **The ONLY output you provide MUST be a valid, unadulterated JSON object.**\n- Answer in JSON with keys: plan (array of steps), constraint_ack (string), self_corrections (string), session_id (string).\n- Close the loop by confirming the plan is ready to execute.", ?_⟩
    rw [show T1 = ['\n', '\n'] ++ (S "OBSERVE" ++
        S ":\n- Capture the incoming request exactly as received.\n- Request: \"") from by decide]
    rw [show T3 = S "\"\n\n" ++ (S "REFLECT" ++
        (S ":\n- Review the observation for missing context (missing steps, conflicting instructions).\n- Call out any tensions or nutrition trade-offs before planning.\n\n" ++
          (S "LOOP" ++ S ":\n- Produce a corrected cooking plan that explicitly mentions how you honored the constraint.\n- Highlight a single self-correction you made after your reflection.\n- **The ONLY output you provide MUST be a valid, unadulterated JSON object.**\n- Answer in JSON with keys: plan (array of steps), constraint_ack (string), self_corrections (string), session_id (string).\n- Close the loop by confirming the plan is ready to execute."))) from by decide]
    simp [List.append_assoc]
  · exact ⟨T0 ++ sid ++ T1, T2 ++ c' ++ T3, by simp [List.append_assoc]⟩

/-- **C6 (witness).** A concrete benign request: one of each marker, in
order, and the query verbatim. -/
theorem c6_prompt_sections_witness :
    countOcc (S "OBSERVE")
      (_format_agent_message (.str (S "Make pasta")) (.str (S "")) (S "abc-123")) = 1 ∧
    countOcc (S "REFLECT")
      (_format_agent_message (.str (S "Make pasta")) (.str (S "")) (S "abc-123")) = 1 ∧
    countOcc (S "LOOP")
      (_format_agent_message (.str (S "Make pasta")) (.str (S "")) (S "abc-123")) = 1 ∧
    (∃ u v w x, _format_agent_message (.str (S "Make pasta")) (.str (S "")) (S "abc-123") =
      u ++ S "OBSERVE" ++ (v ++ S "REFLECT" ++ (w ++ S "LOOP" ++ x))) ∧
    (∃ a b, _format_agent_message (.str (S "Make pasta")) (.str (S "")) (S "abc-123") =
      a ++ S "Make pasta" ++ b) :=
  c6_prompt_sections (S "Make pasta") (S "") (S "abc-123")
    (by decide) (by decide) (by decide) (by decide) (by decide) (by decide)
    (by decide) (by decide) (by decide) (by decide) (by decide) (by decide)

/-! ## Claim C7 -/

/-- **C7 (counterexample).** The claim says every non-empty string
constraint appears verbatim in the prompt.  A multi-line constraint whose
second line is indented by eight spaces is re-indented by `textwrap.dedent`
(applied after interpolation), so the constraint `"x\n        y"` does not
occur in the formatted prompt at all. -/
theorem c7_counterexample :
    countOcc (S "x\n        y")
      (_format_agent_message (.str (S "find recipe")) (.str (S "x\n        y")) (S "s0")) = 0 ∧
    ¬ ∃ a b : Str,
      _format_agent_message (.str (S "find recipe")) (.str (S "x\n        y")) (S "s0") =
        a ++ S "x\n        y" ++ b := by
  have hz : countOcc (S "x\n        y")
      (_format_agent_message (.str (S "find recipe")) (.str (S "x\n        y")) (S "s0")) = 0 := by
    decide
  refine ⟨hz, ?_⟩
  rintro ⟨a, b, heq⟩
  have hpos := countOcc_pos_of_split (S "x\n        y") a b (by decide)
  rw [← List.append_assoc, ← heq, hz] at hpos
  exact absurd hpos (by decide)

/-- **C7 (amended).** The substitution on main.py line 20: an empty string
constraint becomes the exact placeholder `No additional constraint.`, which
then appears in the prompt; a non-empty *single-line* constraint is kept as
the constraint section and appears verbatim in the prompt.  (Multi-line
constraints can be re-indented by dedent, per the counterexample.) -/
theorem c7_constraint_verbatim (q c sid : Str)
    (hqn : '\n' ∉ q) (hcn : '\n' ∉ c) (hsn : '\n' ∉ sid) :
    (c = [] → constraint_section (.str c) = .str placeholder ∧
      ∃ a b, _format_agent_message (.str q) (.str c) sid = a ++ placeholder ++ b) ∧
    (c ≠ [] → constraint_section (.str c) = .str c ∧
      ∃ a b, _format_agent_message (.str q) (.str c) sid = a ++ c ++ b) := by
  constructor
  · intro hc
    subst hc
    refine ⟨rfl, T0 ++ sid ++ T1 ++ q ++ T2, T3, ?_⟩
    rw [format_str_inputs, formatStr_decomp q _ sid hqn (by decide) hsn]
    simp [List.append_assoc]
  · intro hc
    have hsec : constraint_section (.str c) = .str c := by
      cases c with
      | nil => exact absurd rfl hc
      | cons x cs => rfl
    refine ⟨hsec, T0 ++ sid ++ T1 ++ q ++ T2, T3, ?_⟩
    have hne : c.isEmpty = false := by
      cases c with
      | nil => exact absurd rfl hc
      | cons x cs => rfl
    rw [format_str_inputs, hne]
    simp only [Bool.false_eq_true, if_false]
    rw [formatStr_decomp q c sid hqn hcn hsn]

/-- **C7 (witness).** A concrete single-line constraint appears verbatim. -/
theorem c7_constraint_verbatim_witness :
    constraint_section (.str (S "vegan")) = .str (S "vegan") ∧
    ∃ a b, _format_agent_message (.str (S "cook rice")) (.str (S "vegan")) (S "s7") =
      a ++ S "vegan" ++ b :=
  (c7_constraint_verbatim (S "cook rice") (S "vegan") (S "s7")
    (by decide) (by decide) (by decide)).2 (by decide)

/-! ## Claim C9 -/

/-- **C9.** The placeholder substitution is Python falsiness, not string
emptiness: `pyTruthy` is false exactly on `None`, `False`, `0`, `""`, `[]`
and `{}`; every falsy constraint value is replaced by the placeholder in the
prompt, and every truthy value is interpolated via its `str()` form. -/
theorem c9_falsy_placeholder (query cv : Json) (sid : Str)
    (hqn : '\n' ∉ py_str query) (hcn : '\n' ∉ py_str cv) (hsn : '\n' ∉ sid) :
    (pyTruthy cv = false ↔
      (cv = .null ∨ cv = .bool false ∨ cv = .int 0 ∨ cv = .str [] ∨
        cv = .arr [] ∨ cv = .obj [])) ∧
    (pyTruthy cv = false →
      constraint_section cv = .str placeholder ∧
      ∃ a b, _format_agent_message query cv sid = a ++ placeholder ++ b) ∧
    (pyTruthy cv = true →
      constraint_section cv = cv ∧
      ∃ a b, _format_agent_message query cv sid = a ++ py_str cv ++ b) := by
  refine ⟨?_, ?_, ?_⟩
  · cases cv with
    | null => simp [pyTruthy]
    | bool b => cases b <;> simp [pyTruthy]
    | int n =>
      simp only [pyTruthy, bne_eq_false_iff_eq, Json.int.injEq]
      simp
    | str s => cases s <;> simp [pyTruthy, List.isEmpty]
    | arr xs => cases xs <;> simp [pyTruthy, List.isEmpty]
    | obj kvs => cases kvs <;> simp [pyTruthy, List.isEmpty]
  · intro hf
    have hsec : constraint_section cv = .str placeholder := by
      unfold constraint_section
      rw [hf]
      simp
    refine ⟨hsec, T0 ++ sid ++ T1 ++ py_str query ++ T2, T3, ?_⟩
    unfold _format_agent_message
    rw [hsec]
    rw [show py_str (.str placeholder) = placeholder from rfl]
    rw [formatStr_decomp (py_str query) placeholder sid hqn (by decide) hsn]
  · intro ht
    have hsec : constraint_section cv = cv := by
      unfold constraint_section
      rw [ht]
      simp
    refine ⟨hsec, T0 ++ sid ++ T1 ++ py_str query ++ T2, T3, ?_⟩
    unfold _format_agent_message
    rw [hsec]
    rw [formatStr_decomp (py_str query) (py_str cv) sid hqn hcn hsn]

/-- **C9 (witness).** The empty array — falsy but not the empty string — is
replaced by the placeholder in the prompt. -/
theorem c9_falsy_placeholder_witness :
    constraint_section (.arr []) = .str placeholder ∧
    ∃ a b, _format_agent_message (.str (S "soup")) (.arr []) (S "s9") =
      a ++ placeholder ++ b :=
  (c9_falsy_placeholder (.str (S "soup")) (.arr []) (S "s9")
    (by decide) (by decide) (by decide)).2.1 rfl

end RecipeProxy
